import Mathlib

/-!
Verification development for a C++ smart-pointer library
(`shared-from-this/shared.h`, `weak/weak.h`, `intrusive/intrusive.h`).

The control blocks, the `SharedPtr`/`WeakPtr` handle operations, the
`EnableSharedFromThis` mixin and the intrusive `RefCounted` counter are
shallowly embedded as pure Lean functions on explicit state records.
Counters in the source are `size_t`, so every increment and decrement is
taken modulo `2 ^ 64`.  Heap effects that the claims observe (running the
managed object's destructor, freeing the control block, undefined
behaviour such as dereferencing a null pointer) are tracked by explicit
fields of the state records.
-/

namespace SmartPtr

/-- Width of `size_t` (the counters wrap modulo this). -/
def W : Nat := 2 ^ 64

/-- State of one control block, covering both concrete variants
(`PtrControlBlock`, whose `control_ptr_` is modelled by `ptr`, and
`ObjectControlBlock`, whose `buffer_ptr_` is also modelled by `ptr`;
`none` models a null pointer and `some a` a pointer with address `a`).
`val` is the value of the managed object (set by its constructor), read
on dereference while the object is alive.  `destroys` counts runs of the
managed object's destructor, `alive`/`frees` track whether `delete this`
has freed the block, and `ub` records whether undefined behaviour
(calling `buffer_ptr_->~T()` through a null pointer) has occurred. -/
structure CB where
  strong : Nat
  weak : Nat
  ptr : Option Nat
  val : Nat
  destroys : Nat
  alive : Bool
  frees : Nat
  ub : Bool
deriving Repr, DecidableEq

/-- Constructor `PtrControlBlock(T* ptr)`: `strong_counter_ = 1`,
`weak_counter_ = 0`, `control_ptr_ = ptr` (the argument may be null). -/
def ptrCB (p : Option Nat) (v : Nat) : CB :=
  { strong := 1, weak := 0, ptr := p, val := v,
    destroys := 0, alive := true, frees := 0, ub := false }

/-- Constructor `ObjectControlBlock(Args&&... args)`: `strong_counter_ = 1`,
`weak_counter_ = 0`, `buffer_ptr_` points into the block's own buffer
(never null); the managed object is constructed in place with value `v`. -/
def objCB (b : Nat) (v : Nat) : CB :=
  { strong := 1, weak := 0, ptr := some b, val := v,
    destroys := 0, alive := true, frees := 0, ub := false }

/-- `IncreaseStrongCounter`: `++strong_counter_` (identical in both
control-block variants). -/
def increaseStrong (cb : CB) : CB :=
  { cb with strong := (cb.strong + 1) % W }

/-- `IncreaseWeakCounter`: `++weak_counter_` (identical in both variants). -/
def increaseWeak (cb : CB) : CB :=
  { cb with weak := (cb.weak + 1) % W }

/-- `PtrControlBlock::DecreaseStrongCounter`: `--strong_counter_`; if the
result is `0`, `delete control_ptr_` (runs the managed object's destructor
exactly when `control_ptr_` is non-null; `delete nullptr` is a no-op),
null out `control_ptr_`, and if `weak_counter_ == 0` then `delete this`. -/
def decreaseStrongPtr (cb : CB) : CB :=
  let s := (cb.strong + (W - 1)) % W
  if s = 0 then
    let cb1 :=
      { cb with
          strong := s,
          destroys := cb.destroys + (if cb.ptr.isSome then 1 else 0),
          ptr := none }
    if cb.weak = 0 then { cb1 with alive := false, frees := cb1.frees + 1 }
    else cb1
  else { cb with strong := s }

/-- `ObjectControlBlock::DecreaseStrongCounter`: `--strong_counter_`; if the
result is `0`, `buffer_ptr_->~T()` (an in-place destructor call; through a
null `buffer_ptr_` this is undefined behaviour, recorded in `ub`), null out
`buffer_ptr_`, and if `weak_counter_ == 0` then `delete this`. -/
def decreaseStrongObj (cb : CB) : CB :=
  let s := (cb.strong + (W - 1)) % W
  if s = 0 then
    let cb1 :=
      { cb with
          strong := s,
          destroys := cb.destroys + (if cb.ptr.isSome then 1 else 0),
          ub := cb.ub || !cb.ptr.isSome,
          ptr := none }
    if cb.weak = 0 then { cb1 with alive := false, frees := cb1.frees + 1 }
    else cb1
  else { cb with strong := s }

/-- `DecreaseWeakCounter` (identical in both variants): `--weak_counter_`;
if `weak_counter_ == 0 && strong_counter_ == 0` then `delete this`. -/
def decreaseWeakCB (cb : CB) : CB :=
  let w := (cb.weak + (W - 1)) % W
  if w = 0 ∧ cb.strong = 0 then
    { cb with weak := w, alive := false, frees := cb.frees + 1 }
  else { cb with weak := w }

/-- `BruteDecreaseWeakCounter` (identical in both variants):
`--weak_counter_` with no free check of any kind. -/
def bruteDecreaseWeak (cb : CB) : CB :=
  { cb with weak := (cb.weak + (W - 1)) % W }

/-! ## Intrusive reference counting (`intrusive/intrusive.h`) -/

/-- `SimpleCounter::DecRef`: `--count_` on a `size_t`. -/
def simpleDecRef (c : Nat) : Nat := (c + (W - 1)) % W

/-- `RefCounted::DecRef` acting on the embedded counter value.  Source:
`if (counter_.RefCount() == 0) Destroy(); else { counter_.DecRef();
if (counter_.RefCount() == 0) Destroy(); }`.  Returns the counter value
after the call and whether `Deleter::Destroy` was invoked. -/
def decRef (c : Nat) : Nat × Bool :=
  if c = 0 then (c, true)
  else
    let c1 := simpleDecRef c
    if c1 = 0 then (c1, true) else (c1, false)

/-! ## Pointer-field shapes of `SharedPtr` and `WeakPtr` handles

A handle holds `base_block_` (here: `blk = true` when non-null) and
`observed_ptr_` (here: `none` for null, `some a` for address `a`).  The
constructors below record exactly the pointer-field assignments of the
corresponding source constructors; the counter side effects they perform
on the shared control block are modelled separately (`increaseStrong`
and friends) and by the operational group model further down. -/

/-- Pointer fields of a `SharedPtr` handle. -/
structure SH where
  blk : Bool
  obs : Option Nat
deriving Repr, DecidableEq

/-- Pointer fields of a `WeakPtr` handle. -/
structure WH where
  blk : Bool
  obs : Option Nat
deriving Repr, DecidableEq

/-- `SharedPtr()` and `SharedPtr(std::nullptr_t)`: both pointers null. -/
def defaultCtor : SH := { blk := false, obs := none }

/-- `SharedPtr(Y* ptr)`: `base_block_ = new PtrControlBlock<Y>(ptr)`
(always a fresh non-null block, even for a null `ptr`),
`observed_ptr_ = ptr`. -/
def rawCtor (p : Option Nat) : SH := { blk := true, obs := p }

/-- Copy constructor: copies both pointers (and increments the strong
counter when the block is non-null). -/
def copyCtor (h : SH) : SH := { blk := h.blk, obs := h.obs }

/-- Move constructor, the newly built handle: takes both pointers. -/
def moveCtorNew (h : SH) : SH := { blk := h.blk, obs := h.obs }

/-- Move constructor, what is left of the source: both pointers nulled. -/
def moveCtorSrc (_h : SH) : SH := { blk := false, obs := none }

/-- Aliasing constructor `SharedPtr(const SharedPtr<Y>& other, T* ptr)`:
`base_block_ = other.base_block_` (incrementing the strong counter only
when it is non-null), `observed_ptr_ = ptr` unconditionally. -/
def aliasCtor (h : SH) (p : Option Nat) : SH := { blk := h.blk, obs := p }

/-- `Reset()`: decrement if the block is non-null, then null both fields. -/
def resetOp (_h : SH) : SH := { blk := false, obs := none }

/-- `Reset(Y* ptr)`: decrement if the block is non-null, then install a
fresh `PtrControlBlock(ptr)` and set `observed_ptr_ = ptr`. -/
def resetPtrOp (_h : SH) (p : Option Nat) : SH := { blk := true, obs := p }

/-- `Swap`: exchanges the two handles' pointer pairs. -/
def swapOp (h g : SH) : SH × SH := (g, h)

/-- Copy assignment (in the non-self-assignment branch): release the old
block, then copy both pointers of the right-hand side. -/
def copyAssign (_h g : SH) : SH := { blk := g.blk, obs := g.obs }

/-- Move assignment, the assigned-to handle. -/
def moveAssignDst (_h g : SH) : SH := { blk := g.blk, obs := g.obs }

/-- Move assignment, what is left of the source. -/
def moveAssignSrc (_g : SH) : SH := { blk := false, obs := none }

/-! ## `WeakPtr` observers and promotion (`weak/weak.h`) -/

/-- `WeakPtr::UseCount`: `base_block_->GetStrongCounter()` when the block
is non-null, else `0`.  The handle's block is the control block `cb`. -/
def wUseCount (cb : CB) (w : WH) : Nat :=
  if w.blk then cb.strong else 0

/-- `WeakPtr::Expired`: `UseCount() == 0`. -/
def wExpired (cb : CB) (w : WH) : Bool :=
  wUseCount cb w == 0

/-- `WeakPtr::Lock`: if expired, return a default-constructed (empty)
`SharedPtr`; otherwise `IncreaseStrongCounter` on the block and return a
handle carrying the same block and observed pointer.  Returns the
updated control block together with the produced strong handle. -/
def lock (cb : CB) (w : WH) : CB × SH :=
  if wExpired cb w then (cb, defaultCtor)
  else (increaseStrong cb, { blk := true, obs := w.obs })

/-- Promotion constructor `SharedPtr(const WeakPtr<T>& other)`: if
`other.Expired()` then `throw BadWeakPtr()` (the `.error` case);
otherwise copy both pointers and increment the strong counter when the
block is non-null.  The weak handle is taken by const reference and
never modified. -/
def promoteCtor (cb : CB) (w : WH) : Except Unit (CB × SH) :=
  if wExpired cb w then .error ()
  else .ok (if w.blk then increaseStrong cb else cb,
            { blk := w.blk, obs := w.obs })

/-! ## `EnableSharedFromThis` (`shared-from-this/shared.h`) -/

/-- The mixin's state: its private `weak_this_` handle.  `blk = false`
models an object that was never bound to a control block (the member is
still the default-constructed `WeakPtr` with a null `base_block_`). -/
structure ESFT where
  weakThis : WH
deriving Repr, DecidableEq

/-- `EnableSharedFromThis::SharedFromThis`: `return weak_this_.Lock();`. -/
def sharedFromThis (cb : CB) (e : ESFT) : CB × SH :=
  lock cb e.weakThis

/-- `EnableSharedFromThis::WeakFromThis`: `return weak_this_;` — the
`WeakPtr` copy constructor copies both pointers and increments the weak
counter when the block is non-null.  Total: it never fails. -/
def weakFromThis (cb : CB) (e : ESFT) : CB × WH :=
  (if e.weakThis.blk then increaseWeak cb else cb, e.weakThis)

/-- `EnableSharedFromThis::~EnableSharedFromThis`:
`weak_this_.base_block_->BruteDecreaseWeakCounter();` with no null check,
then both fields of `weak_this_` are nulled (so the member's own
`~WeakPtr` does nothing).  When `weak_this_.base_block_` is null — an
object that was never bound — the call dereferences a null pointer:
undefined behaviour, modelled as `none`. -/
def esftDtor (cb : CB) (e : ESFT) : Option (CB × ESFT) :=
  if e.weakThis.blk then
    some (bruteDecreaseWeak cb, { weakThis := { blk := false, obs := none } })
  else none

/-! ## Operational model of a group of `SharedPtr` handles on one block

A group is all strong handles that share one control block, starting
from the single handle produced by a constructor.  Each handle is either
attached to the group's block (holding its observed pointer) or empty
(null `base_block_`; a handle that is empty never touches the block's
counters, so its observed pointer is irrelevant to the group).  The
`step` function applies one source operation; `dec` is the block's
`DecreaseStrongCounter` implementation (one per variant). -/

/-- State of one handle of the group. -/
inductive HState where
  | attached (obs : Option Nat)
  | empty
deriving Repr, DecidableEq

/-- Whether a handle references the group's control block. -/
def isAttached : HState → Bool
  | .attached _ => true
  | .empty => false

/-- Group state: the one shared control block plus all handles. -/
structure GState where
  cb : CB
  handles : List HState
deriving Repr, DecidableEq

/-- One operation of the claim's alphabet, each indexing the handle(s)
it acts on.  `copy`, `move` and `aliasOf` append the newly constructed
handle at the end of the list; `reset` is `Reset()` and `destroy` is
`~SharedPtr()` (their bodies in the source are identical). -/
inductive Op where
  | copy (src : Nat)
  | move (src : Nat)
  | aliasOf (src : Nat) (p : Option Nat)
  | reset (idx : Nat)
  | destroy (idx : Nat)
deriving Repr, DecidableEq

/-- Number of live strong handles of the group referencing its block. -/
def aCount : List HState → Nat
  | [] => 0
  | h :: t => (if isAttached h then 1 else 0) + aCount t

/-- Apply one operation.  Copying or aliasing an attached handle calls
`IncreaseStrongCounter`; copying/moving/aliasing an empty handle copies
null pointers and touches no counter; `Reset()`/`~SharedPtr` on an
attached handle calls `DecreaseStrongCounter` and nulls the handle, on
an empty handle they only re-null it.  An out-of-range index is a no-op
(there is no such handle to operate on). -/
def step (dec : CB → CB) (s : GState) (op : Op) : GState :=
  match op with
  | .copy src =>
    match s.handles[src]? with
    | some (.attached o) => ⟨increaseStrong s.cb, s.handles ++ [.attached o]⟩
    | some .empty => ⟨s.cb, s.handles ++ [.empty]⟩
    | none => s
  | .move src =>
    match s.handles[src]? with
    | some (.attached o) => ⟨s.cb, (s.handles.set src .empty) ++ [.attached o]⟩
    | some .empty => ⟨s.cb, s.handles ++ [.empty]⟩
    | none => s
  | .aliasOf src p =>
    match s.handles[src]? with
    | some (.attached _) => ⟨increaseStrong s.cb, s.handles ++ [.attached p]⟩
    | some .empty => ⟨s.cb, s.handles ++ [.empty]⟩
    | none => s
  | .reset idx =>
    match s.handles[idx]? with
    | some (.attached _) => ⟨dec s.cb, s.handles.set idx .empty⟩
    | some .empty => s
    | none => s
  | .destroy idx =>
    match s.handles[idx]? with
    | some (.attached _) => ⟨dec s.cb, s.handles.set idx .empty⟩
    | some .empty => s
    | none => s

/-- Run a whole sequence of operations. -/
def run (dec : CB → CB) (ops : List Op) (s : GState) : GState :=
  ops.foldl (step dec) s

/-- `SharedPtr::UseCount` of handle `i`:
`base_block_->GetStrongCounter()` when attached, else `0`. -/
def useCountAt (s : GState) (i : Nat) : Nat :=
  match s.handles[i]? with
  | some (.attached _) => s.cb.strong
  | _ => 0

/-- Dereferencing handle `i` (`operator*`): the managed object's value
while the handle is attached and the object is alive, else undefined
(`none`). -/
def derefAt (s : GState) (i : Nat) : Option Nat :=
  match s.handles[i]? with
  | some (.attached _) => if s.cb.ptr.isSome then some s.cb.val else none
  | _ => none

/-- Group freshly created by `SharedPtr(Y* ptr)` with `ptr` the address
`a` of a separately allocated object of value `v`. -/
def initRaw (a v : Nat) : GState :=
  ⟨ptrCB (some a) v, [.attached (some a)]⟩

/-- Group freshly created by `MakeShared<T>(args...)`: one
`ObjectControlBlock` whose `buffer_ptr_` (address `b`) holds the object
of value `v`; the returned handle observes `buffer_ptr_`. -/
def initMake (b v : Nat) : GState :=
  ⟨objCB b v, [.attached (some b)]⟩

/-- The group invariant: the strong counter equals the number of
attached handles, no weak handles exist, and the object/block lifetime
fields all reflect whether the group still has an attached handle. -/
def GInv (s : GState) : Prop :=
  s.cb.strong = aCount s.handles ∧
  s.cb.weak = 0 ∧
  s.cb.ptr.isSome = decide (0 < aCount s.handles) ∧
  s.cb.destroys = (if aCount s.handles = 0 then 1 else 0) ∧
  s.cb.alive = decide (0 < aCount s.handles) ∧
  s.cb.frees = (if aCount s.handles = 0 then 1 else 0) ∧
  s.cb.ub = false

instance (s : GState) : Decidable (GInv s) := by
  unfold GInv; infer_instance

/-- Observational equivalence of two group states: equal counters and
lifetime accounting, equal managed value, and the same pattern of
attached handles (only the concrete addresses stored in pointers may
differ). -/
def ObsRel (s t : GState) : Prop :=
  s.cb.strong = t.cb.strong ∧
  s.cb.weak = t.cb.weak ∧
  s.cb.destroys = t.cb.destroys ∧
  s.cb.alive = t.cb.alive ∧
  s.cb.frees = t.cb.frees ∧
  s.cb.ub = t.cb.ub ∧
  s.cb.val = t.cb.val ∧
  s.cb.ptr.isSome = t.cb.ptr.isSome ∧
  s.handles.map isAttached = t.handles.map isAttached

/-- `SharedPtr::UseCount` of a single handle whose (possibly absent)
control block is `cb`: `base_block_->GetStrongCounter()` when the block
is non-null, else `0`. -/
def useCountSH (cb : CB) (h : SH) : Nat :=
  if h.blk then cb.strong else 0

/-- `SharedPtr::operator bool`: `observed_ptr_ != nullptr` (it tests the
observed pointer, not the control block). -/
def opBool (h : SH) : Bool :=
  h.obs.isSome

/-! ## Arithmetic of the wrapping `size_t` counters -/

theorem W_pos : 0 < W := by norm_num [W]

theorem dec_mod (n : Nat) (h1 : 1 ≤ n) (h2 : n < W) :
    (n + (W - 1)) % W = n - 1 := by
  have hW : 0 < W := W_pos
  have he : n + (W - 1) = (n - 1) + W := by omega
  rw [he, Nat.add_mod_right, Nat.mod_eq_of_lt (by omega)]

theorem inc_mod (n : Nat) (h : n + 1 < W) : (n + 1) % W = n + 1 :=
  Nat.mod_eq_of_lt h

/-! ## Counting attached handles -/

theorem aCount_append (l1 l2 : List HState) :
    aCount (l1 ++ l2) = aCount l1 + aCount l2 := by
  induction l1 with
  | nil => simp [aCount]
  | cons h t ih =>
    rw [List.cons_append]
    simp only [aCount]
    rw [ih]
    omega

theorem aCount_le_length (l : List HState) : aCount l ≤ l.length := by
  induction l with
  | nil => simp [aCount]
  | cons h t ih => simp only [aCount, List.length_cons]; split <;> omega

theorem aCount_pos (l : List HState) (i : Nat) (o : Option Nat)
    (h : l[i]? = some (.attached o)) : 0 < aCount l := by
  induction l generalizing i with
  | nil => simp at h
  | cons x t ih =>
    cases i with
    | zero =>
      rw [List.getElem?_cons_zero] at h
      cases h
      simp [aCount, isAttached]
    | succ j =>
      rw [List.getElem?_cons_succ] at h
      have := ih j h
      simp only [aCount]
      omega

theorem aCount_set_empty (l : List HState) (i : Nat) (o : Option Nat)
    (h : l[i]? = some (.attached o)) :
    aCount (l.set i .empty) + 1 = aCount l := by
  induction l generalizing i with
  | nil => simp at h
  | cons x t ih =>
    cases i with
    | zero =>
      rw [List.getElem?_cons_zero] at h
      cases h
      simp [List.set, aCount, isAttached]
      omega
    | succ j =>
      rw [List.getElem?_cons_succ] at h
      have := ih j h
      simp only [List.set, aCount]
      omega


/-! ## Unfolding the strong decrement -/

theorem decPtr_mid (cb : CB) (h1 : 2 ≤ cb.strong) (h2 : cb.strong < W) :
    decreaseStrongPtr cb = { cb with strong := cb.strong - 1 } := by
  simp only [decreaseStrongPtr]
  rw [dec_mod cb.strong (by omega) h2]
  rw [if_neg (by omega)]

theorem decPtr_last (cb : CB) (h1 : cb.strong = 1) (hw : cb.weak = 0) :
    decreaseStrongPtr cb =
      { cb with
          strong := 0,
          destroys := cb.destroys + (if cb.ptr.isSome then 1 else 0),
          ptr := none,
          alive := false,
          frees := cb.frees + 1 } := by
  have hz : (cb.strong + (W - 1)) % W = 0 := by
    have hW := W_pos
    have he : cb.strong + (W - 1) = W := by omega
    rw [he, Nat.mod_self]
  simp [decreaseStrongPtr, hz, hw]

theorem decObj_eq_decPtr (cb : CB) (h : cb.ptr.isSome = true) :
    decreaseStrongObj cb = decreaseStrongPtr cb := by
  simp [decreaseStrongObj, decreaseStrongPtr, h]

/-! ## Preservation of the group invariant -/

theorem ginv_append_attached (cb : CB) (hs : List HState) (o : Option Nat)
    (hinv : GInv ⟨cb, hs⟩) (hpos : 0 < aCount hs) (hb : aCount hs + 1 < W) :
    GInv ⟨increaseStrong cb, hs ++ [.attached o]⟩ := by
  unfold GInv at hinv ⊢
  dsimp only at hinv ⊢
  obtain ⟨h1, h2, h3, h4, h5, h6, h7⟩ := hinv
  have ha : aCount (hs ++ [HState.attached o]) = aCount hs + 1 := by
    rw [aCount_append]; simp [aCount, isAttached]
  rw [ha]
  simp only [increaseStrong]
  refine ⟨?_, h2, ?_, ?_, ?_, ?_, h7⟩
  · rw [h1, inc_mod _ hb]
  · rw [h3, decide_eq_decide]; omega
  · rw [h4, if_neg (by omega), if_neg (by omega)]
  · rw [h5, decide_eq_decide]; omega
  · rw [h6, if_neg (by omega), if_neg (by omega)]

theorem ginv_append_empty (cb : CB) (hs : List HState)
    (hinv : GInv ⟨cb, hs⟩) : GInv ⟨cb, hs ++ [.empty]⟩ := by
  unfold GInv at hinv ⊢
  dsimp only at hinv ⊢
  have ha : aCount (hs ++ [HState.empty]) = aCount hs := by
    rw [aCount_append]; simp [aCount, isAttached]
  rw [ha]
  exact hinv

theorem ginv_move (cb : CB) (hs : List HState) (src : Nat) (o : Option Nat)
    (hinv : GInv ⟨cb, hs⟩) (hsrc : hs[src]? = some (.attached o)) :
    GInv ⟨cb, (hs.set src .empty) ++ [.attached o]⟩ := by
  unfold GInv at hinv ⊢
  dsimp only at hinv ⊢
  have hset := aCount_set_empty hs src o hsrc
  have ha : aCount ((hs.set src .empty) ++ [HState.attached o]) = aCount hs := by
    rw [aCount_append]; simp [aCount, isAttached]; omega
  rw [ha]
  exact hinv

theorem ginv_dec (cb : CB) (hs : List HState) (idx : Nat) (o : Option Nat)
    (hinv : GInv ⟨cb, hs⟩) (hidx : hs[idx]? = some (.attached o))
    (hb : aCount hs < W) :
    GInv ⟨decreaseStrongPtr cb, hs.set idx .empty⟩ := by
  unfold GInv at hinv ⊢
  dsimp only at hinv ⊢
  obtain ⟨h1, h2, h3, h4, h5, h6, h7⟩ := hinv
  have hset := aCount_set_empty hs idx o hidx
  have hpos : 0 < aCount hs := aCount_pos hs idx o hidx
  by_cases hone : aCount hs = 1
  · have hstrong : cb.strong = 1 := by rw [h1, hone]
    have hzero : aCount (hs.set idx HState.empty) = 0 := by omega
    have hsome : cb.ptr.isSome = true := by rw [h3]; simpa using hpos
    rw [decPtr_last cb hstrong h2, hzero]
    dsimp only
    refine ⟨rfl, h2, by simp, ?_, by simp, ?_, h7⟩
    · rw [hsome, h4, if_neg (by omega)]
      norm_num
    · rw [h6, if_neg (by omega)]
      norm_num
  · have h2le : 2 ≤ cb.strong := by omega
    rw [decPtr_mid cb h2le (by omega)]
    dsimp only
    refine ⟨?_, h2, ?_, ?_, ?_, ?_, h7⟩
    · omega
    · rw [h3, decide_eq_decide]; omega
    · rw [h4, if_neg (by omega), if_neg (by omega)]
    · rw [h5, decide_eq_decide]; omega
    · rw [h6, if_neg (by omega), if_neg (by omega)]

/-! ## Invariant along whole operation sequences -/

theorem step_inv (s : GState) (op : Op) (hinv : GInv s)
    (hb : aCount s.handles + 1 < W) :
    GInv (step decreaseStrongPtr s op) ∧
    aCount (step decreaseStrongPtr s op).handles ≤ aCount s.handles + 1 := by
  obtain ⟨cb, hs⟩ := s
  dsimp only at hb ⊢
  cases op with
  | copy src =>
    cases hsrc : hs[src]? with
    | none => simp only [step, hsrc]; exact ⟨hinv, by omega⟩
    | some hh =>
      cases hh with
      | attached o =>
        have hpos := aCount_pos hs src o hsrc
        simp only [step, hsrc]
        refine ⟨ginv_append_attached cb hs o hinv hpos hb, ?_⟩
        rw [aCount_append]
        simp [aCount, isAttached]
      | empty =>
        simp only [step, hsrc]
        refine ⟨ginv_append_empty cb hs hinv, ?_⟩
        rw [aCount_append]
        simp [aCount, isAttached]
  | move src =>
    cases hsrc : hs[src]? with
    | none => simp only [step, hsrc]; exact ⟨hinv, by omega⟩
    | some hh =>
      cases hh with
      | attached o =>
        have hset := aCount_set_empty hs src o hsrc
        simp only [step, hsrc]
        refine ⟨ginv_move cb hs src o hinv hsrc, ?_⟩
        rw [aCount_append]
        simp [aCount, isAttached]
        omega
      | empty =>
        simp only [step, hsrc]
        refine ⟨ginv_append_empty cb hs hinv, ?_⟩
        rw [aCount_append]
        simp [aCount, isAttached]
  | aliasOf src p =>
    cases hsrc : hs[src]? with
    | none => simp only [step, hsrc]; exact ⟨hinv, by omega⟩
    | some hh =>
      cases hh with
      | attached o =>
        have hpos := aCount_pos hs src o hsrc
        simp only [step, hsrc]
        refine ⟨ginv_append_attached cb hs p hinv hpos hb, ?_⟩
        rw [aCount_append]
        simp [aCount, isAttached]
      | empty =>
        simp only [step, hsrc]
        refine ⟨ginv_append_empty cb hs hinv, ?_⟩
        rw [aCount_append]
        simp [aCount, isAttached]
  | reset idx =>
    cases hidx : hs[idx]? with
    | none => simp only [step, hidx]; exact ⟨hinv, by omega⟩
    | some hh =>
      cases hh with
      | attached o =>
        have hset := aCount_set_empty hs idx o hidx
        simp only [step, hidx]
        refine ⟨ginv_dec cb hs idx o hinv hidx (by omega), by omega⟩
      | empty =>
        simp only [step, hidx]
        exact ⟨hinv, by omega⟩
  | destroy idx =>
    cases hidx : hs[idx]? with
    | none => simp only [step, hidx]; exact ⟨hinv, by omega⟩
    | some hh =>
      cases hh with
      | attached o =>
        have hset := aCount_set_empty hs idx o hidx
        simp only [step, hidx]
        refine ⟨ginv_dec cb hs idx o hinv hidx (by omega), by omega⟩
      | empty =>
        simp only [step, hidx]
        exact ⟨hinv, by omega⟩

theorem run_cons (dec : CB → CB) (op : Op) (rest : List Op) (s : GState) :
    run dec (op :: rest) s = run dec rest (step dec s op) := rfl

theorem run_inv (ops : List Op) (s : GState) (hinv : GInv s)
    (hb : aCount s.handles + ops.length < W) :
    GInv (run decreaseStrongPtr ops s) ∧
    aCount (run decreaseStrongPtr ops s).handles ≤ aCount s.handles + ops.length := by
  induction ops generalizing s with
  | nil => exact ⟨hinv, by simp [run]⟩
  | cons op rest ih =>
    rw [List.length_cons] at hb
    obtain ⟨hinv1, hle1⟩ := step_inv s op hinv (by omega)
    obtain ⟨hinv2, hle2⟩ :=
      ih (step decreaseStrongPtr s op) hinv1 (by omega)
    rw [run_cons]
    refine ⟨hinv2, ?_⟩
    rw [List.length_cons]
    omega

/-! ## The co-allocated block steps exactly like the separate one -/

theorem step_obj_eq (s : GState) (op : Op) (hinv : GInv s) :
    step decreaseStrongObj s op = step decreaseStrongPtr s op := by
  obtain ⟨cb, hs⟩ := s
  have hinv1 := hinv
  unfold GInv at hinv1
  dsimp only at hinv1
  have hsome : 0 < aCount hs → cb.ptr.isSome = true := by
    intro hpos
    rw [hinv1.2.2.1]
    simpa using hpos
  cases op with
  | copy src =>
    cases hsrc : hs[src]? with
    | none => simp only [step, hsrc]
    | some hh => cases hh <;> simp only [step, hsrc]
  | move src =>
    cases hsrc : hs[src]? with
    | none => simp only [step, hsrc]
    | some hh => cases hh <;> simp only [step, hsrc]
  | aliasOf src p =>
    cases hsrc : hs[src]? with
    | none => simp only [step, hsrc]
    | some hh => cases hh <;> simp only [step, hsrc]
  | reset idx =>
    cases hidx : hs[idx]? with
    | none => simp only [step, hidx]
    | some hh =>
      cases hh with
      | attached o =>
        have hpos := aCount_pos hs idx o hidx
        simp only [step, hidx, decObj_eq_decPtr cb (hsome hpos)]
      | empty => simp only [step, hidx]
  | destroy idx =>
    cases hidx : hs[idx]? with
    | none => simp only [step, hidx]
    | some hh =>
      cases hh with
      | attached o =>
        have hpos := aCount_pos hs idx o hidx
        simp only [step, hidx, decObj_eq_decPtr cb (hsome hpos)]
      | empty => simp only [step, hidx]

theorem run_obj_eq (ops : List Op) (s : GState) (hinv : GInv s)
    (hb : aCount s.handles + ops.length < W) :
    run decreaseStrongObj ops s = run decreaseStrongPtr ops s := by
  induction ops generalizing s with
  | nil => simp [run]
  | cons op rest ih =>
    rw [List.length_cons] at hb
    obtain ⟨hinv1, hle1⟩ := step_inv s op hinv (by omega)
    rw [run_cons, run_cons, step_obj_eq s op hinv]
    exact ih (step decreaseStrongPtr s op) hinv1 (by omega)

/-! ## Observational equivalence is preserved by every operation -/

theorem decPtr_rel (cb cb2 : CB)
    (e1 : cb.strong = cb2.strong) (e2 : cb.weak = cb2.weak)
    (e3 : cb.destroys = cb2.destroys) (e4 : cb.alive = cb2.alive)
    (e5 : cb.frees = cb2.frees) (e6 : cb.ub = cb2.ub)
    (e7 : cb.val = cb2.val) (e8 : cb.ptr.isSome = cb2.ptr.isSome) :
    (decreaseStrongPtr cb).strong = (decreaseStrongPtr cb2).strong ∧
    (decreaseStrongPtr cb).weak = (decreaseStrongPtr cb2).weak ∧
    (decreaseStrongPtr cb).destroys = (decreaseStrongPtr cb2).destroys ∧
    (decreaseStrongPtr cb).alive = (decreaseStrongPtr cb2).alive ∧
    (decreaseStrongPtr cb).frees = (decreaseStrongPtr cb2).frees ∧
    (decreaseStrongPtr cb).ub = (decreaseStrongPtr cb2).ub ∧
    (decreaseStrongPtr cb).val = (decreaseStrongPtr cb2).val ∧
    (decreaseStrongPtr cb).ptr.isSome = (decreaseStrongPtr cb2).ptr.isSome := by
  by_cases hz : (cb2.strong + (W - 1)) % W = 0
  · by_cases hw : cb2.weak = 0
    · simp [decreaseStrongPtr, e1, e2, e3, e4, e5, e6, e7, e8, hz, hw]
    · simp [decreaseStrongPtr, e1, e2, e3, e4, e5, e6, e7, e8, hz, hw]
  · simp [decreaseStrongPtr, e1, e2, e3, e4, e5, e6, e7, e8, hz]

theorem step_obsrel (s t : GState) (op : Op) (hrel : ObsRel s t) :
    ObsRel (step decreaseStrongPtr s op) (step decreaseStrongPtr t op) := by
  obtain ⟨cb, hs⟩ := s
  obtain ⟨cb2, ht⟩ := t
  unfold ObsRel at hrel ⊢
  dsimp only at hrel ⊢
  obtain ⟨e1, e2, e3, e4, e5, e6, e7, e8, e9⟩ := hrel
  have hm : ∀ i : Nat, (hs[i]?).map isAttached = (ht[i]?).map isAttached := by
    intro i
    rw [← List.getElem?_map, ← List.getElem?_map, e9]
  cases op with
  | copy src =>
    have hms := hm src
    cases hsrc : hs[src]? with
    | none =>
      cases htrc : ht[src]? with
      | none =>
        simp only [step, hsrc, htrc]
        exact ⟨e1, e2, e3, e4, e5, e6, e7, e8, e9⟩
      | some x => rw [hsrc, htrc] at hms; simp at hms
    | some hh =>
      cases htrc : ht[src]? with
      | none => rw [hsrc, htrc] at hms; simp at hms
      | some gg =>
        rw [hsrc, htrc] at hms
        cases hh with
        | attached o =>
          cases gg with
          | attached o2 =>
            simp only [step, hsrc, htrc]
            refine ⟨?_, e2, e3, e4, e5, e6, e7, e8, ?_⟩
            · simp only [increaseStrong]
              rw [e1]
            · rw [List.map_append, List.map_append, e9]
              simp [isAttached]
          | empty => simp [isAttached] at hms
        | empty =>
          cases gg with
          | attached o2 => simp [isAttached] at hms
          | empty =>
            simp only [step, hsrc, htrc]
            refine ⟨e1, e2, e3, e4, e5, e6, e7, e8, ?_⟩
            rw [List.map_append, List.map_append, e9]
  | move src =>
    have hms := hm src
    cases hsrc : hs[src]? with
    | none =>
      cases htrc : ht[src]? with
      | none =>
        simp only [step, hsrc, htrc]
        exact ⟨e1, e2, e3, e4, e5, e6, e7, e8, e9⟩
      | some x => rw [hsrc, htrc] at hms; simp at hms
    | some hh =>
      cases htrc : ht[src]? with
      | none => rw [hsrc, htrc] at hms; simp at hms
      | some gg =>
        rw [hsrc, htrc] at hms
        cases hh with
        | attached o =>
          cases gg with
          | attached o2 =>
            simp only [step, hsrc, htrc]
            refine ⟨e1, e2, e3, e4, e5, e6, e7, e8, ?_⟩
            rw [List.map_append, List.map_append, List.map_set, List.map_set, e9]
            simp [isAttached]
          | empty => simp [isAttached] at hms
        | empty =>
          cases gg with
          | attached o2 => simp [isAttached] at hms
          | empty =>
            simp only [step, hsrc, htrc]
            refine ⟨e1, e2, e3, e4, e5, e6, e7, e8, ?_⟩
            rw [List.map_append, List.map_append, e9]
  | aliasOf src p =>
    have hms := hm src
    cases hsrc : hs[src]? with
    | none =>
      cases htrc : ht[src]? with
      | none =>
        simp only [step, hsrc, htrc]
        exact ⟨e1, e2, e3, e4, e5, e6, e7, e8, e9⟩
      | some x => rw [hsrc, htrc] at hms; simp at hms
    | some hh =>
      cases htrc : ht[src]? with
      | none => rw [hsrc, htrc] at hms; simp at hms
      | some gg =>
        rw [hsrc, htrc] at hms
        cases hh with
        | attached o =>
          cases gg with
          | attached o2 =>
            simp only [step, hsrc, htrc]
            refine ⟨?_, e2, e3, e4, e5, e6, e7, e8, ?_⟩
            · simp only [increaseStrong]
              rw [e1]
            · rw [List.map_append, List.map_append, e9]
          | empty => simp [isAttached] at hms
        | empty =>
          cases gg with
          | attached o2 => simp [isAttached] at hms
          | empty =>
            simp only [step, hsrc, htrc]
            refine ⟨e1, e2, e3, e4, e5, e6, e7, e8, ?_⟩
            rw [List.map_append, List.map_append, e9]
  | reset idx =>
    have hms := hm idx
    cases hidx : hs[idx]? with
    | none =>
      cases htdx : ht[idx]? with
      | none =>
        simp only [step, hidx, htdx]
        exact ⟨e1, e2, e3, e4, e5, e6, e7, e8, e9⟩
      | some x => rw [hidx, htdx] at hms; simp at hms
    | some hh =>
      cases htdx : ht[idx]? with
      | none => rw [hidx, htdx] at hms; simp at hms
      | some gg =>
        rw [hidx, htdx] at hms
        cases hh with
        | attached o =>
          cases gg with
          | attached o2 =>
            obtain ⟨d1, d2, d3, d4, d5, d6, d7, d8⟩ :=
              decPtr_rel cb cb2 e1 e2 e3 e4 e5 e6 e7 e8
            simp only [step, hidx, htdx]
            refine ⟨d1, d2, d3, d4, d5, d6, d7, d8, ?_⟩
            rw [List.map_set, List.map_set, e9]
          | empty => simp [isAttached] at hms
        | empty =>
          cases gg with
          | attached o2 => simp [isAttached] at hms
          | empty =>
            simp only [step, hidx, htdx]
            exact ⟨e1, e2, e3, e4, e5, e6, e7, e8, e9⟩
  | destroy idx =>
    have hms := hm idx
    cases hidx : hs[idx]? with
    | none =>
      cases htdx : ht[idx]? with
      | none =>
        simp only [step, hidx, htdx]
        exact ⟨e1, e2, e3, e4, e5, e6, e7, e8, e9⟩
      | some x => rw [hidx, htdx] at hms; simp at hms
    | some hh =>
      cases htdx : ht[idx]? with
      | none => rw [hidx, htdx] at hms; simp at hms
      | some gg =>
        rw [hidx, htdx] at hms
        cases hh with
        | attached o =>
          cases gg with
          | attached o2 =>
            obtain ⟨d1, d2, d3, d4, d5, d6, d7, d8⟩ :=
              decPtr_rel cb cb2 e1 e2 e3 e4 e5 e6 e7 e8
            simp only [step, hidx, htdx]
            refine ⟨d1, d2, d3, d4, d5, d6, d7, d8, ?_⟩
            rw [List.map_set, List.map_set, e9]
          | empty => simp [isAttached] at hms
        | empty =>
          cases gg with
          | attached o2 => simp [isAttached] at hms
          | empty =>
            simp only [step, hidx, htdx]
            exact ⟨e1, e2, e3, e4, e5, e6, e7, e8, e9⟩

theorem run_obsrel (ops : List Op) (s t : GState) (hrel : ObsRel s t) :
    ObsRel (run decreaseStrongPtr ops s) (run decreaseStrongPtr ops t) := by
  induction ops generalizing s t with
  | nil => exact hrel
  | cons op rest ih =>
    rw [run_cons, run_cons]
    exact ih _ _ (step_obsrel s t op hrel)

theorem useCount_obsrel (s t : GState) (hrel : ObsRel s t) (i : Nat) :
    useCountAt s i = useCountAt t i := by
  obtain ⟨e1, _, _, _, _, _, _, _, e9⟩ := hrel
  have hms : (s.handles[i]?).map isAttached = (t.handles[i]?).map isAttached := by
    rw [← List.getElem?_map, ← List.getElem?_map, e9]
  unfold useCountAt
  cases hsi : s.handles[i]? with
  | none =>
    cases hti : t.handles[i]? with
    | none => rfl
    | some x => rw [hsi, hti] at hms; simp at hms
  | some hh =>
    cases hti : t.handles[i]? with
    | none => rw [hsi, hti] at hms; simp at hms
    | some gg =>
      rw [hsi, hti] at hms
      cases hh with
      | attached o =>
        cases gg with
        | attached o2 => exact e1
        | empty => simp [isAttached] at hms
      | empty =>
        cases gg with
        | attached o2 => simp [isAttached] at hms
        | empty => rfl

theorem deref_obsrel (s t : GState) (hrel : ObsRel s t) (i : Nat) :
    derefAt s i = derefAt t i := by
  obtain ⟨_, _, _, _, _, _, e7, e8, e9⟩ := hrel
  have hms : (s.handles[i]?).map isAttached = (t.handles[i]?).map isAttached := by
    rw [← List.getElem?_map, ← List.getElem?_map, e9]
  unfold derefAt
  cases hsi : s.handles[i]? with
  | none =>
    cases hti : t.handles[i]? with
    | none => rfl
    | some x => rw [hsi, hti] at hms; simp at hms
  | some hh =>
    cases hti : t.handles[i]? with
    | none => rw [hsi, hti] at hms; simp at hms
    | some gg =>
      rw [hsi, hti] at hms
      cases hh with
      | attached o =>
        cases gg with
        | attached o2 => rw [e8, e7]
        | empty => simp [isAttached] at hms
      | empty =>
        cases gg with
        | attached o2 => simp [isAttached] at hms
        | empty => rfl

/-! ## Initial groups satisfy the invariant -/

theorem decPtr_last_weak (cb : CB) (h1 : cb.strong = 1) (hw : cb.weak ≠ 0) :
    decreaseStrongPtr cb =
      { cb with
          strong := 0,
          destroys := cb.destroys + (if cb.ptr.isSome then 1 else 0),
          ptr := none } := by
  have hz : (cb.strong + (W - 1)) % W = 0 := by
    have hW := W_pos
    have he : cb.strong + (W - 1) = W := by omega
    rw [he, Nat.mod_self]
  simp [decreaseStrongPtr, hz, hw]

theorem ginv_initRaw (a v : Nat) : GInv (initRaw a v) := by
  simp [GInv, initRaw, ptrCB, aCount, isAttached]

theorem ginv_initMake (b v : Nat) : GInv (initMake b v) := by
  simp [GInv, initMake, objCB, aCount, isAttached]

/-! ## The claims -/

/-- C2: Two-stage release.  A strong decrement (either variant) lowers the
strong counter by one, destroys the managed object exactly when the result
is zero, and frees the control block exactly when the result is zero and
the weak counter is also zero; a weak decrement lowers the weak counter by
one and frees the control block exactly when it leaves the weak counter at
zero while the strong counter is zero. -/
theorem two_stage_release (cb cb2 : CB)
    (hs1 : 1 ≤ cb.strong) (hs2 : cb.strong < W) (hp : cb.ptr.isSome = true)
    (hw1 : 1 ≤ cb2.weak) (hw2 : cb2.weak < W) :
    (decreaseStrongPtr cb).strong = cb.strong - 1 ∧
    ((decreaseStrongPtr cb).destroys = cb.destroys + 1 ↔ cb.strong - 1 = 0) ∧
    ((decreaseStrongPtr cb).frees = cb.frees + 1 ↔
      (cb.strong - 1 = 0 ∧ cb.weak = 0)) ∧
    decreaseStrongObj cb = decreaseStrongPtr cb ∧
    (decreaseWeakCB cb2).weak = cb2.weak - 1 ∧
    ((decreaseWeakCB cb2).frees = cb2.frees + 1 ↔
      (cb2.weak - 1 = 0 ∧ cb2.strong = 0)) := by
  have hobj := decObj_eq_decPtr cb hp
  have hstrong3 : (decreaseStrongPtr cb).strong = cb.strong - 1 ∧
      ((decreaseStrongPtr cb).destroys = cb.destroys + 1 ↔ cb.strong - 1 = 0) ∧
      ((decreaseStrongPtr cb).frees = cb.frees + 1 ↔
        (cb.strong - 1 = 0 ∧ cb.weak = 0)) := by
    by_cases hone : cb.strong = 1
    · by_cases hw : cb.weak = 0
      · rw [decPtr_last cb hone hw]
        dsimp only
        rw [hp]
        refine ⟨by omega, by simp [hone], by simp [hone, hw]⟩
      · rw [decPtr_last_weak cb hone hw]
        dsimp only
        rw [hp]
        refine ⟨by omega, by simp [hone], by omega⟩
    · have h2le : 2 ≤ cb.strong := by omega
      rw [decPtr_mid cb h2le hs2]
      dsimp only
      refine ⟨rfl, by omega, by omega⟩
  have hweak2 : (decreaseWeakCB cb2).weak = cb2.weak - 1 ∧
      ((decreaseWeakCB cb2).frees = cb2.frees + 1 ↔
        (cb2.weak - 1 = 0 ∧ cb2.strong = 0)) := by
    have hd := dec_mod cb2.weak hw1 hw2
    simp only [decreaseWeakCB, hd]
    by_cases hc : cb2.weak - 1 = 0 ∧ cb2.strong = 0
    · rw [if_pos hc]
      dsimp only
      exact ⟨rfl, by omega⟩
    · rw [if_neg hc]
      dsimp only
      exact ⟨rfl, by omega⟩
  exact ⟨hstrong3.1, hstrong3.2.1, hstrong3.2.2, hobj, hweak2.1, hweak2.2⟩

/-- Witness for C2 at a block with one strong owner and no weak observers,
and a second block with one weak observer and no strong owners. -/
theorem two_stage_release_witness :
    1 ≤ (⟨1, 0, some 5, 7, 0, true, 0, false⟩ : CB).strong ∧
    (⟨1, 0, some 5, 7, 0, true, 0, false⟩ : CB).strong < W ∧
    ((decreaseStrongPtr ⟨1, 0, some 5, 7, 0, true, 0, false⟩).strong = 0 ∧
     ((decreaseStrongPtr ⟨1, 0, some 5, 7, 0, true, 0, false⟩).destroys = 1 ↔
       (0 : Nat) = 0) ∧
     ((decreaseStrongPtr ⟨1, 0, some 5, 7, 0, true, 0, false⟩).frees = 1 ↔
       ((0 : Nat) = 0 ∧ (0 : Nat) = 0)) ∧
     decreaseStrongObj ⟨1, 0, some 5, 7, 0, true, 0, false⟩ =
       decreaseStrongPtr ⟨1, 0, some 5, 7, 0, true, 0, false⟩ ∧
     (decreaseWeakCB ⟨0, 1, none, 0, 0, true, 0, false⟩).weak = 0 ∧
     ((decreaseWeakCB ⟨0, 1, none, 0, 0, true, 0, false⟩).frees = 1 ↔
       ((0 : Nat) = 0 ∧ (0 : Nat) = 0))) :=
  ⟨by decide, by decide,
   two_stage_release ⟨1, 0, some 5, 7, 0, true, 0, false⟩
     ⟨0, 1, none, 0, 0, true, 0, false⟩
     (by decide) (by decide) (by decide) (by decide) (by decide)⟩

/-- C4: the intrusive `RefCounted::DecRef`, called with the counter at 0,
destroys the object without performing any decrement, although the
decrement-then-check protocol (which the wrapping decrement would satisfy,
since `(0 + (W-1)) % W ≠ 0`) demands no destruction there; for every
counter value `c ≥ 1` it does follow the protocol: one decrement, destroy
iff the result is zero. -/
theorem decref_protocol (c : Nat) (h1 : 1 ≤ c) (h2 : c < W) :
    decRef 0 = (0, true) ∧
    simpleDecRef 0 ≠ 0 ∧
    decRef c = (c - 1, decide (c - 1 = 0)) := by
  refine ⟨rfl, ?_, ?_⟩
  · have hW2 : 2 ≤ W := by norm_num [W]
    simp only [simpleDecRef]
    rw [Nat.zero_add, Nat.mod_eq_of_lt (by omega)]
    omega
  · simp only [decRef]
    rw [if_neg (by omega)]
    simp only [simpleDecRef]
    rw [dec_mod c h1 h2]
    by_cases hz : c - 1 = 0
    · simp [hz]
    · simp [hz]

/-- Witness for C4 at counter value 3. -/
theorem decref_protocol_witness :
    1 ≤ (3 : Nat) ∧ (3 : Nat) < W ∧
    (decRef 0 = (0, true) ∧
     simpleDecRef 0 ≠ 0 ∧
     decRef 3 = (2, false)) :=
  ⟨by decide, by decide, decref_protocol 3 (by decide) (by decide)⟩

/-- C10: `SharedPtr` built from a null typed raw pointer still allocates a
separate-allocation control block with strong count 1: `UseCount() == 1`,
`Get() == nullptr`, `operator bool` is `false`; its destruction runs no
object destructor (`delete nullptr` is a no-op) yet frees the block
without error, and `Reset(null ptr)` produces the same handle shape with
use count 1 on its fresh block. -/
theorem null_raw_pointer_ctor (v : Nat) (h : SH) :
    useCountSH (ptrCB none v) (rawCtor none) = 1 ∧
    (rawCtor none).obs = none ∧
    opBool (rawCtor none) = false ∧
    (decreaseStrongPtr (ptrCB none v)).strong = 0 ∧
    (decreaseStrongPtr (ptrCB none v)).destroys = 0 ∧
    (decreaseStrongPtr (ptrCB none v)).frees = 1 ∧
    (decreaseStrongPtr (ptrCB none v)).alive = false ∧
    (decreaseStrongPtr (ptrCB none v)).ub = false ∧
    resetPtrOp h none = rawCtor none ∧
    useCountSH (ptrCB none v) (resetPtrOp h none) = 1 := by
  have hd := decPtr_last (ptrCB none v) rfl rfl
  refine ⟨rfl, rfl, rfl, ?_, ?_, ?_, ?_, ?_, rfl, rfl⟩ <;>
    rw [hd] <;> simp [ptrCB]

/-- C6: the `EnableSharedFromThis` destructor of a bound object performs
exactly one non-checking weak decrement (`BruteDecreaseWeakCounter`, which
never frees the block, never destroys the object and leaves the strong
counter untouched); but on an object that was never bound to a control
block the destructor dereferences the null `weak_this_.base_block_`:
undefined behaviour (`none`), so the teardown is not well-defined there. -/
theorem esft_teardown (cb cbu : CB) (e : ESFT)
    (hbound : e.weakThis.blk = true) :
    esftDtor cbu ⟨⟨false, none⟩⟩ = none ∧
    esftDtor cb e = some (bruteDecreaseWeak cb, ⟨⟨false, none⟩⟩) ∧
    (bruteDecreaseWeak cb).strong = cb.strong ∧
    (bruteDecreaseWeak cb).destroys = cb.destroys ∧
    (bruteDecreaseWeak cb).alive = cb.alive ∧
    (bruteDecreaseWeak cb).frees = cb.frees := by
  refine ⟨rfl, ?_, ?_, ?_, ?_, ?_⟩
  · simp [esftDtor, hbound]
  all_goals unfold bruteDecreaseWeak
  all_goals rfl

/-- Witness for C6: a bound object over a block with one weak reference,
and the never-bound case evaluated on a second block. -/
theorem esft_teardown_witness :
    (⟨⟨true, some 4⟩⟩ : ESFT).weakThis.blk = true ∧
    (esftDtor ⟨1, 1, some 2, 0, 0, true, 0, false⟩ ⟨⟨false, none⟩⟩ = none ∧
     esftDtor ⟨0, 1, none, 0, 0, true, 0, false⟩ ⟨⟨true, some 4⟩⟩ =
       some (bruteDecreaseWeak ⟨0, 1, none, 0, 0, true, 0, false⟩,
             ⟨⟨false, none⟩⟩) ∧
     (bruteDecreaseWeak ⟨0, 1, none, 0, 0, true, 0, false⟩).strong = 0 ∧
     (bruteDecreaseWeak ⟨0, 1, none, 0, 0, true, 0, false⟩).destroys = 0 ∧
     (bruteDecreaseWeak ⟨0, 1, none, 0, 0, true, 0, false⟩).alive = true ∧
     (bruteDecreaseWeak ⟨0, 1, none, 0, 0, true, 0, false⟩).frees = 0) :=
  ⟨by decide,
   esft_teardown ⟨0, 1, none, 0, 0, true, 0, false⟩
     ⟨1, 1, some 2, 0, 0, true, 0, false⟩ ⟨⟨true, some 4⟩⟩ (by decide)⟩

/-- C3: promotion of a weak handle fails exactly on expiry.  `Lock`
returns an empty (default-constructed) strong handle iff the weak handle
is empty or the strong count is 0; otherwise it increments the strong
count and returns a handle with the block and the weak handle's observed
pointer, touching no other field.  The promoting constructor throws
`BadWeakPtr` (`error`) iff the weak handle's strong count (`UseCount`)
is 0; otherwise it increments the strong count and copies both pointers
(the weak handle, taken by const reference, is unchanged). -/
theorem lock_and_promote (cb : CB) (w : WH) (hW : cb.strong + 1 < W) :
    ((lock cb w).2 = defaultCtor ↔ (w.blk = false ∨ cb.strong = 0)) ∧
    (lock cb w).1.weak = cb.weak ∧
    (lock cb w).1.destroys = cb.destroys ∧
    (lock cb w).1.ptr = cb.ptr ∧
    (w.blk = true → 0 < cb.strong →
      ((lock cb w).1.strong = cb.strong + 1 ∧
       (lock cb w).2.blk = true ∧
       (lock cb w).2.obs = w.obs)) ∧
    ((promoteCtor cb w = .error ()) ↔ wUseCount cb w = 0) ∧
    (w.blk = true → 0 < cb.strong →
      promoteCtor cb w = .ok (increaseStrong cb, { blk := true, obs := w.obs })) := by
  cases hblk : w.blk
  · have hx : wExpired cb w = true := by simp [wExpired, wUseCount, hblk]
    refine ⟨?_, ?_, ?_, ?_, ?_, ?_, ?_⟩
    · simp [lock, hx, hblk]
    · simp [lock, hx]
    · simp [lock, hx]
    · simp [lock, hx]
    · intro hc; simp [hblk] at hc
    · simp [promoteCtor, hx, wUseCount, hblk]
    · intro hc; simp [hblk] at hc
  · by_cases hz : cb.strong = 0
    · have hx : wExpired cb w = true := by simp [wExpired, wUseCount, hblk, hz]
      refine ⟨?_, ?_, ?_, ?_, ?_, ?_, ?_⟩
      · simp [lock, hx, hblk, hz]
      · simp [lock, hx]
      · simp [lock, hx]
      · simp [lock, hx]
      · intro _ hpos; omega
      · simp [promoteCtor, hx, wUseCount, hblk, hz]
      · intro _ hpos; omega
    · have hx : wExpired cb w = false := by simp [wExpired, wUseCount, hblk, hz]
      refine ⟨?_, ?_, ?_, ?_, ?_, ?_, ?_⟩
      · simp [lock, hx, hblk, hz, defaultCtor]
      · simp [lock, hx, increaseStrong]
      · simp [lock, hx, increaseStrong]
      · simp [lock, hx, increaseStrong]
      · intro _ _
        refine ⟨?_, by simp [lock, hx], by simp [lock, hx]⟩
        simp only [lock, hx, Bool.false_eq_true, if_false, increaseStrong]
        exact inc_mod cb.strong hW
      · simp [promoteCtor, hx, wUseCount, hblk, hz]
      · intro _ _
        simp [promoteCtor, hx, hblk]

/-- Witness for C3: a weak handle over a block with two strong owners. -/
theorem lock_and_promote_witness :
    (⟨2, 1, some 3, 9, 0, true, 0, false⟩ : CB).strong + 1 < W ∧
    (((lock ⟨2, 1, some 3, 9, 0, true, 0, false⟩ ⟨true, some 3⟩).2 = defaultCtor ↔
        ((⟨true, some 3⟩ : WH).blk = false ∨
         (⟨2, 1, some 3, 9, 0, true, 0, false⟩ : CB).strong = 0)) ∧
     (lock ⟨2, 1, some 3, 9, 0, true, 0, false⟩ ⟨true, some 3⟩).1.weak = 1 ∧
     (lock ⟨2, 1, some 3, 9, 0, true, 0, false⟩ ⟨true, some 3⟩).1.destroys = 0 ∧
     (lock ⟨2, 1, some 3, 9, 0, true, 0, false⟩ ⟨true, some 3⟩).1.ptr = some 3 ∧
     ((⟨true, some 3⟩ : WH).blk = true →
      0 < (⟨2, 1, some 3, 9, 0, true, 0, false⟩ : CB).strong →
        ((lock ⟨2, 1, some 3, 9, 0, true, 0, false⟩ ⟨true, some 3⟩).1.strong = 3 ∧
         (lock ⟨2, 1, some 3, 9, 0, true, 0, false⟩ ⟨true, some 3⟩).2.blk = true ∧
         (lock ⟨2, 1, some 3, 9, 0, true, 0, false⟩ ⟨true, some 3⟩).2.obs = some 3)) ∧
     ((promoteCtor ⟨2, 1, some 3, 9, 0, true, 0, false⟩ ⟨true, some 3⟩ = .error ()) ↔
        wUseCount ⟨2, 1, some 3, 9, 0, true, 0, false⟩ ⟨true, some 3⟩ = 0) ∧
     ((⟨true, some 3⟩ : WH).blk = true →
      0 < (⟨2, 1, some 3, 9, 0, true, 0, false⟩ : CB).strong →
        promoteCtor ⟨2, 1, some 3, 9, 0, true, 0, false⟩ ⟨true, some 3⟩ =
          .ok (increaseStrong ⟨2, 1, some 3, 9, 0, true, 0, false⟩,
               { blk := true, obs := some 3 }))) :=
  ⟨by decide, lock_and_promote ⟨2, 1, some 3, 9, 0, true, 0, false⟩
     ⟨true, some 3⟩ (by decide)⟩

/-- C7: self-observation round-trip.  For a bound object whose block has
`n ≥ 1` strong owners, `SharedFromThis` returns a non-empty handle
sharing the block with the internal weak handle's observed pointer and
raising the strong count to `n + 1`; destroying that derived handle
(one strong decrement) restores the count to `n` without running the
managed object's destructor.  For a never-bound object `SharedFromThis`
returns the empty handle, and `WeakFromThis` is total (never fails),
returning a copy of the internal weak handle in both cases. -/
theorem shared_from_this_round_trip (cb cb2 : CB) (e e2 : ESFT) (n : Nat)
    (hbound : e.weakThis.blk = true) (hn : cb.strong = n) (h1 : 1 ≤ n)
    (hW : n + 1 < W) (hunbound : e2.weakThis.blk = false) :
    (sharedFromThis cb e).2.blk = true ∧
    (sharedFromThis cb e).2.obs = e.weakThis.obs ∧
    (sharedFromThis cb e).1.strong = n + 1 ∧
    (decreaseStrongPtr (sharedFromThis cb e).1).strong = n ∧
    (decreaseStrongPtr (sharedFromThis cb e).1).destroys = cb.destroys ∧
    (sharedFromThis cb2 e2).2 = defaultCtor ∧
    (weakFromThis cb2 e2).2 = e2.weakThis ∧
    (weakFromThis cb e).2 = e.weakThis := by
  have hnz : n ≠ 0 := by omega
  have hx : wExpired cb e.weakThis = false := by
    simp [wExpired, wUseCount, hbound, hn, hnz]
  have hlock : sharedFromThis cb e =
      (increaseStrong cb, { blk := true, obs := e.weakThis.obs }) := by
    simp [sharedFromThis, lock, hx]
  have hstr : (increaseStrong cb).strong = n + 1 := by
    simp only [increaseStrong]
    rw [hn, inc_mod _ hW]
  have hx2 : wExpired cb2 e2.weakThis = true := by
    simp [wExpired, wUseCount, hunbound]
  refine ⟨?_, ?_, ?_, ?_, ?_, ?_, rfl, rfl⟩
  · rw [hlock]
  · rw [hlock]
  · rw [hlock]
    exact hstr
  · rw [hlock]
    dsimp only
    have hge : 2 ≤ (increaseStrong cb).strong := by omega
    rw [decPtr_mid _ hge (by omega)]
    dsimp only
    omega
  · rw [hlock]
    dsimp only
    have hge : 2 ≤ (increaseStrong cb).strong := by omega
    rw [decPtr_mid _ hge (by omega)]
    simp [increaseStrong]
  · simp [sharedFromThis, lock, hx2]

/-- Witness for C7: a bound object over a block with 2 strong owners and
a never-bound object over an expired block. -/
theorem shared_from_this_round_trip_witness :
    (⟨⟨true, some 3⟩⟩ : ESFT).weakThis.blk = true ∧
    (⟨2, 1, some 3, 9, 0, true, 0, false⟩ : CB).strong = 2 ∧
    1 ≤ 2 ∧ (2 : Nat) + 1 < W ∧
    (⟨⟨false, none⟩⟩ : ESFT).weakThis.blk = false ∧
    ((sharedFromThis ⟨2, 1, some 3, 9, 0, true, 0, false⟩ ⟨⟨true, some 3⟩⟩).2.blk = true ∧
     (sharedFromThis ⟨2, 1, some 3, 9, 0, true, 0, false⟩ ⟨⟨true, some 3⟩⟩).2.obs = some 3 ∧
     (sharedFromThis ⟨2, 1, some 3, 9, 0, true, 0, false⟩ ⟨⟨true, some 3⟩⟩).1.strong = 3 ∧
     (decreaseStrongPtr
        (sharedFromThis ⟨2, 1, some 3, 9, 0, true, 0, false⟩ ⟨⟨true, some 3⟩⟩).1).strong = 2 ∧
     (decreaseStrongPtr
        (sharedFromThis ⟨2, 1, some 3, 9, 0, true, 0, false⟩ ⟨⟨true, some 3⟩⟩).1).destroys = 0 ∧
     (sharedFromThis ⟨0, 0, none, 0, 0, true, 0, false⟩ ⟨⟨false, none⟩⟩).2 = defaultCtor ∧
     (weakFromThis ⟨0, 0, none, 0, 0, true, 0, false⟩ ⟨⟨false, none⟩⟩).2 =
       (⟨⟨false, none⟩⟩ : ESFT).weakThis ∧
     (weakFromThis ⟨2, 1, some 3, 9, 0, true, 0, false⟩ ⟨⟨true, some 3⟩⟩).2 =
       (⟨⟨true, some 3⟩⟩ : ESFT).weakThis) :=
  ⟨by decide, by decide, by decide, by decide, by decide,
   shared_from_this_round_trip ⟨2, 1, some 3, 9, 0, true, 0, false⟩
     ⟨0, 0, none, 0, 0, true, 0, false⟩ ⟨⟨true, some 3⟩⟩ ⟨⟨false, none⟩⟩ 2
     (by decide) (by decide) (by decide) (by decide) (by decide)⟩

/-- C5 counterexample: the aliasing constructor applied to an empty
source handle (null control block) together with a non-null pointer
produces a `SharedPtr` whose control block is null but whose observed
pointer is non-null, violating the claimed empty-state invariant. -/
theorem alias_empty_source_breaks_invariant :
    (aliasCtor defaultCtor (some 7)).blk = false ∧
    (aliasCtor defaultCtor (some 7)).obs = some 7 := by
  decide

/-- C5 amended: every public `SharedPtr`-producing constructor and
operation preserves the empty-state invariant (null block implies null
observed pointer) on handles built from operands that satisfy it —
except the aliasing constructor, which preserves it only when its source
handle is non-empty or the supplied pointer is null. -/
theorem empty_state_invariant (h g : SH) (p : Option Nat) (cb : CB) (w : WH)
    (hh : h.blk = false → h.obs = none)
    (hg : g.blk = false → g.obs = none) :
    (defaultCtor.blk = false → defaultCtor.obs = none) ∧
    ((rawCtor p).blk = false → (rawCtor p).obs = none) ∧
    ((copyCtor h).blk = false → (copyCtor h).obs = none) ∧
    ((moveCtorNew h).blk = false → (moveCtorNew h).obs = none) ∧
    ((moveCtorSrc h).blk = false → (moveCtorSrc h).obs = none) ∧
    ((h.blk = true ∨ p = none) →
      ((aliasCtor h p).blk = false → (aliasCtor h p).obs = none)) ∧
    (wExpired cb w = false →
      promoteCtor cb w = .ok (increaseStrong cb, { blk := true, obs := w.obs })) ∧
    ((lock cb w).2.blk = false → (lock cb w).2.obs = none) ∧
    ((resetOp h).blk = false → (resetOp h).obs = none) ∧
    ((resetPtrOp h p).blk = false → (resetPtrOp h p).obs = none) ∧
    ((swapOp h g).1.blk = false → (swapOp h g).1.obs = none) ∧
    ((swapOp h g).2.blk = false → (swapOp h g).2.obs = none) ∧
    ((copyAssign h g).blk = false → (copyAssign h g).obs = none) ∧
    ((moveAssignDst h g).blk = false → (moveAssignDst h g).obs = none) ∧
    ((moveAssignSrc g).blk = false → (moveAssignSrc g).obs = none) := by
  refine ⟨fun _ => rfl, ?_, hh, hh, fun _ => rfl, ?_, ?_, ?_,
          fun _ => rfl, ?_, hg, hh, hg, hg, fun _ => rfl⟩
  · intro hc; cases hc
  · rintro (hb | hp0)
    · intro hc
      rw [aliasCtor] at hc
      dsimp only at hc
      rw [hb] at hc
      cases hc
    · intro _
      simp [aliasCtor, hp0]
  · intro hx
    have hblk : w.blk = true := by
      by_contra hc
      have hfalse : w.blk = false := by
        cases hb2 : w.blk
        · rfl
        · exact absurd hb2 hc
      simp [wExpired, wUseCount, hfalse] at hx
    simp [promoteCtor, hx, hblk]
  · intro hc
    by_cases hx : wExpired cb w = true
    · simp [lock, hx, defaultCtor]
    · have hx2 : wExpired cb w = false := by
        cases hb2 : wExpired cb w
        · rfl
        · exact absurd hb2 hx
      rw [lock] at hc
      rw [hx2] at hc
      simp at hc
  · intro hc
    cases hc

/-- C1: for every sequence of copy/move/aliasing/reset/destroy operations
on the group of strong handles sharing one control block (started by the
raw-pointer constructor), `UseCount()` on any handle still referencing
the block equals the number of such handles, and the managed object's
destructor has run exactly once iff no referencing handle remains (so it
runs at the moment the last one is destroyed or reset).  Moreover a
moved-from handle is empty (moving from an attached handle, in any state,
empties it without touching the block), and destroying an empty handle
changes nothing. -/
theorem use_count_tracks_live_handles (a v : Nat) (ops : List Op)
    (i src idx : Nat) (o o2 : Option Nat) (t : GState)
    (hlen : 1 + ops.length < W)
    (hsrc : t.handles[src]? = some (.attached o2))
    (hidx : t.handles[idx]? = some .empty) :
    ((run decreaseStrongPtr ops (initRaw a v)).handles[i]? = some (.attached o) →
      useCountAt (run decreaseStrongPtr ops (initRaw a v)) i =
        aCount (run decreaseStrongPtr ops (initRaw a v)).handles) ∧
    (run decreaseStrongPtr ops (initRaw a v)).cb.destroys =
      (if aCount (run decreaseStrongPtr ops (initRaw a v)).handles = 0
       then 1 else 0) ∧
    (step decreaseStrongPtr t (.move src)).handles[src]? = some .empty ∧
    (step decreaseStrongPtr t (.move src)).cb = t.cb ∧
    (step decreaseStrongPtr t (.destroy idx)).cb = t.cb ∧
    (step decreaseStrongPtr t (.destroy idx)).handles[idx]? = some .empty := by
  have hbud : aCount (initRaw a v).handles + ops.length < W := by
    simp only [initRaw]
    simp [aCount, isAttached]
    omega
  obtain ⟨hinvF, _⟩ := run_inv ops (initRaw a v) (ginv_initRaw a v) hbud
  obtain ⟨f1, f2, f3, f4, f5, f6, f7⟩ := hinvF
  have hlt : src < t.handles.length := (List.getElem?_eq_some.mp hsrc).1
  refine ⟨?_, f4, ?_, ?_, ?_, ?_⟩
  · intro hatt
    simp only [useCountAt, hatt]
    exact f1
  · obtain ⟨cb, hs⟩ := t
    simp only [step, hsrc]
    rw [List.getElem?_append, if_pos (by rw [List.length_set]; exact hlt)]
    rw [List.getElem?_set_self', hsrc]
    rfl
  · obtain ⟨cb, hs⟩ := t
    simp only [step, hsrc]
  · obtain ⟨cb, hs⟩ := t
    simp only [step, hidx]
  · obtain ⟨cb, hs⟩ := t
    simp only [step, hidx]

/-- Witness for C1: one copy of the initial handle, then checked on
handle 0; the step facts checked on a two-handle state. -/
theorem use_count_tracks_live_handles_witness :
    1 + [Op.copy 0].length < W ∧
    (⟨⟨1, 0, some 0, 7, 0, true, 0, false⟩,
       [.attached none, .empty]⟩ : GState).handles[0]? =
      some (.attached none) ∧
    (⟨⟨1, 0, some 0, 7, 0, true, 0, false⟩,
       [.attached none, .empty]⟩ : GState).handles[1]? = some .empty ∧
    (((run decreaseStrongPtr [Op.copy 0] (initRaw 0 7)).handles[0]? =
        some (.attached (some 0)) →
      useCountAt (run decreaseStrongPtr [Op.copy 0] (initRaw 0 7)) 0 =
        aCount (run decreaseStrongPtr [Op.copy 0] (initRaw 0 7)).handles) ∧
     (run decreaseStrongPtr [Op.copy 0] (initRaw 0 7)).cb.destroys =
       (if aCount (run decreaseStrongPtr [Op.copy 0] (initRaw 0 7)).handles = 0
        then 1 else 0) ∧
     (step decreaseStrongPtr
        ⟨⟨1, 0, some 0, 7, 0, true, 0, false⟩, [.attached none, .empty]⟩
        (.move 0)).handles[0]? = some .empty ∧
     (step decreaseStrongPtr
        ⟨⟨1, 0, some 0, 7, 0, true, 0, false⟩, [.attached none, .empty]⟩
        (.move 0)).cb = ⟨1, 0, some 0, 7, 0, true, 0, false⟩ ∧
     (step decreaseStrongPtr
        ⟨⟨1, 0, some 0, 7, 0, true, 0, false⟩, [.attached none, .empty]⟩
        (.destroy 1)).cb = ⟨1, 0, some 0, 7, 0, true, 0, false⟩ ∧
     (step decreaseStrongPtr
        ⟨⟨1, 0, some 0, 7, 0, true, 0, false⟩, [.attached none, .empty]⟩
        (.destroy 1)).handles[1]? = some .empty) :=
  ⟨by decide, by decide, by decide,
   use_count_tracks_live_handles 0 7 [Op.copy 0] 0 0 1 (some 0) none
     ⟨⟨1, 0, some 0, 7, 0, true, 0, false⟩, [.attached none, .empty]⟩
     (by decide) (by decide) (by decide)⟩

/-- C9: the aliasing constructor on a non-empty source shares the block
(one strong increment), observes exactly the supplied pointer `p`, does
not touch the managed object (its destructor count stays 0), and the
original object stays alive under any further operations as long as any
strong handle of the block (the aliasing one included) is live. -/
theorem aliasing_keeps_original_alive (s : GState) (src : Nat)
    (o p : Option Nat) (ops2 : List Op)
    (hinv : GInv s) (hsrc : s.handles[src]? = some (.attached o))
    (hb : aCount s.handles + 1 + ops2.length < W) :
    (step decreaseStrongPtr s (.aliasOf src p)).cb.strong = s.cb.strong + 1 ∧
    (step decreaseStrongPtr s (.aliasOf src p)).handles[s.handles.length]? =
      some (.attached p) ∧
    (step decreaseStrongPtr s (.aliasOf src p)).cb.destroys = s.cb.destroys ∧
    (step decreaseStrongPtr s (.aliasOf src p)).cb.ptr = s.cb.ptr ∧
    s.cb.destroys = 0 ∧
    (0 < aCount (run decreaseStrongPtr ops2
        (step decreaseStrongPtr s (.aliasOf src p))).handles →
      (run decreaseStrongPtr ops2
        (step decreaseStrongPtr s (.aliasOf src p))).cb.destroys = 0) := by
  have hstep := step_inv s (.aliasOf src p) hinv (by omega)
  obtain ⟨hinv1, hle1⟩ := hstep
  have hfin := run_inv ops2 (step decreaseStrongPtr s (.aliasOf src p)) hinv1
    (by omega)
  obtain ⟨hinvG, -⟩ := hfin
  have hlast := hinvG.2.2.2.1
  obtain ⟨cb, hs⟩ := s
  have hpos := aCount_pos hs src o hsrc
  have hinv2 := hinv
  unfold GInv at hinv2
  dsimp only at hinv2
  obtain ⟨h1, h2, h3, h4, h5, h6, h7⟩ := hinv2
  have hb2 : aCount hs + 1 + ops2.length < W := hb
  refine ⟨?_, ?_, ?_, ?_, ?_, ?_⟩
  · simp only [step, hsrc]
    dsimp only [increaseStrong]
    exact inc_mod _ (by omega)
  · simp only [step, hsrc]
    exact List.getElem?_concat_length hs (.attached p)
  · simp only [step, hsrc]
    simp [increaseStrong]
  · simp only [step, hsrc]
    simp [increaseStrong]
  · rw [h4, if_neg (by omega)]
  · intro hposF
    rw [hlast, if_neg (by omega)]

/-- Witness for C9: alias of the only handle of a fresh raw-constructed
group, then the original handle is destroyed; the object survives. -/
theorem aliasing_keeps_original_alive_witness :
    GInv (initRaw 0 7) ∧
    (initRaw 0 7).handles[0]? = some (.attached (some 0)) ∧
    aCount (initRaw 0 7).handles + 1 + [Op.destroy 0].length < W ∧
    ((step decreaseStrongPtr (initRaw 0 7) (.aliasOf 0 (some 42))).cb.strong =
       (initRaw 0 7).cb.strong + 1 ∧
     (step decreaseStrongPtr (initRaw 0 7)
        (.aliasOf 0 (some 42))).handles[(initRaw 0 7).handles.length]? =
       some (.attached (some 42)) ∧
     (step decreaseStrongPtr (initRaw 0 7) (.aliasOf 0 (some 42))).cb.destroys =
       (initRaw 0 7).cb.destroys ∧
     (step decreaseStrongPtr (initRaw 0 7) (.aliasOf 0 (some 42))).cb.ptr =
       (initRaw 0 7).cb.ptr ∧
     (initRaw 0 7).cb.destroys = 0 ∧
     (0 < aCount (run decreaseStrongPtr [Op.destroy 0]
         (step decreaseStrongPtr (initRaw 0 7) (.aliasOf 0 (some 42)))).handles →
       (run decreaseStrongPtr [Op.destroy 0]
         (step decreaseStrongPtr (initRaw 0 7)
           (.aliasOf 0 (some 42)))).cb.destroys = 0)) :=
  ⟨by decide, by decide, by decide,
   aliasing_keeps_original_alive (initRaw 0 7) 0 (some 0) (some 42)
     [Op.destroy 0] (by decide) (by decide) (by decide)⟩

/-- C8: a group started by `MakeShared` (co-allocated block) and one
started by the raw-pointer constructor on a separately allocated object
of the same value are observationally equivalent: after any prefix of
any operation sequence, every handle reports the same `UseCount()`,
dereferences to the same value (or is equally invalid), and the managed
object has been destroyed in one run iff it has in the other. -/
theorem make_shared_equiv_raw (a b v : Nat) (ops : List Op) (n i : Nat)
    (hlen : 1 + ops.length < W) :
    useCountAt (run decreaseStrongPtr (ops.take n) (initRaw a v)) i =
      useCountAt (run decreaseStrongObj (ops.take n) (initMake b v)) i ∧
    derefAt (run decreaseStrongPtr (ops.take n) (initRaw a v)) i =
      derefAt (run decreaseStrongObj (ops.take n) (initMake b v)) i ∧
    (run decreaseStrongPtr (ops.take n) (initRaw a v)).cb.destroys =
      (run decreaseStrongObj (ops.take n) (initMake b v)).cb.destroys := by
  have htk : (List.take n ops).length ≤ ops.length := by
    rw [List.length_take]
    exact Nat.min_le_right _ _
  have hbudM : aCount (initMake b v).handles + (List.take n ops).length < W := by
    simp only [initMake]
    simp [aCount, isAttached]
    omega
  have hrw : run decreaseStrongObj (ops.take n) (initMake b v) =
      run decreaseStrongPtr (ops.take n) (initMake b v) :=
    run_obj_eq (ops.take n) (initMake b v) (ginv_initMake b v) hbudM
  have hrel0 : ObsRel (initRaw a v) (initMake b v) :=
    ⟨rfl, rfl, rfl, rfl, rfl, rfl, rfl, rfl, rfl⟩
  have hrel := run_obsrel (ops.take n) _ _ hrel0
  rw [hrw]
  exact ⟨useCount_obsrel _ _ hrel i, deref_obsrel _ _ hrel i, hrel.2.2.1⟩

/-- Witness for C8: copy then destroy both handles; checked after the
full 3-operation prefix on handle 1 (addresses 1 and 2, value 5). -/
theorem make_shared_equiv_raw_witness :
    1 + [Op.copy 0, Op.destroy 0, Op.destroy 1].length < W ∧
    (useCountAt (run decreaseStrongPtr
        ([Op.copy 0, Op.destroy 0, Op.destroy 1].take 3) (initRaw 1 5)) 1 =
      useCountAt (run decreaseStrongObj
        ([Op.copy 0, Op.destroy 0, Op.destroy 1].take 3) (initMake 2 5)) 1 ∧
     derefAt (run decreaseStrongPtr
        ([Op.copy 0, Op.destroy 0, Op.destroy 1].take 3) (initRaw 1 5)) 1 =
      derefAt (run decreaseStrongObj
        ([Op.copy 0, Op.destroy 0, Op.destroy 1].take 3) (initMake 2 5)) 1 ∧
     (run decreaseStrongPtr
        ([Op.copy 0, Op.destroy 0, Op.destroy 1].take 3)
        (initRaw 1 5)).cb.destroys =
      (run decreaseStrongObj
        ([Op.copy 0, Op.destroy 0, Op.destroy 1].take 3)
        (initMake 2 5)).cb.destroys) :=
  ⟨by decide,
   make_shared_equiv_raw 1 2 5 [Op.copy 0, Op.destroy 0, Op.destroy 1] 3 1
     (by decide)⟩

/-- Witness for C5 amended: a full handle, an empty handle, a non-null
pointer and a live weak handle. -/
theorem empty_state_invariant_witness :
    ((⟨true, some 1⟩ : SH).blk = false → (⟨true, some 1⟩ : SH).obs = none) ∧
    ((⟨false, none⟩ : SH).blk = false → (⟨false, none⟩ : SH).obs = none) ∧
    ((defaultCtor.blk = false → defaultCtor.obs = none) ∧
     ((rawCtor (some 2)).blk = false → (rawCtor (some 2)).obs = none) ∧
     ((copyCtor ⟨true, some 1⟩).blk = false →
       (copyCtor ⟨true, some 1⟩).obs = none) ∧
     ((moveCtorNew ⟨true, some 1⟩).blk = false →
       (moveCtorNew ⟨true, some 1⟩).obs = none) ∧
     ((moveCtorSrc ⟨true, some 1⟩).blk = false →
       (moveCtorSrc ⟨true, some 1⟩).obs = none) ∧
     (((⟨true, some 1⟩ : SH).blk = true ∨ (some 2 : Option Nat) = none) →
       ((aliasCtor ⟨true, some 1⟩ (some 2)).blk = false →
         (aliasCtor ⟨true, some 1⟩ (some 2)).obs = none)) ∧
     (wExpired ⟨1, 0, some 3, 0, 0, true, 0, false⟩ ⟨true, some 3⟩ = false →
       promoteCtor ⟨1, 0, some 3, 0, 0, true, 0, false⟩ ⟨true, some 3⟩ =
         .ok (increaseStrong ⟨1, 0, some 3, 0, 0, true, 0, false⟩,
              { blk := true, obs := some 3 })) ∧
     ((lock ⟨1, 0, some 3, 0, 0, true, 0, false⟩ ⟨true, some 3⟩).2.blk = false →
       (lock ⟨1, 0, some 3, 0, 0, true, 0, false⟩ ⟨true, some 3⟩).2.obs = none) ∧
     ((resetOp ⟨true, some 1⟩).blk = false →
       (resetOp ⟨true, some 1⟩).obs = none) ∧
     ((resetPtrOp ⟨true, some 1⟩ (some 2)).blk = false →
       (resetPtrOp ⟨true, some 1⟩ (some 2)).obs = none) ∧
     ((swapOp ⟨true, some 1⟩ ⟨false, none⟩).1.blk = false →
       (swapOp ⟨true, some 1⟩ ⟨false, none⟩).1.obs = none) ∧
     ((swapOp ⟨true, some 1⟩ ⟨false, none⟩).2.blk = false →
       (swapOp ⟨true, some 1⟩ ⟨false, none⟩).2.obs = none) ∧
     ((copyAssign ⟨true, some 1⟩ ⟨false, none⟩).blk = false →
       (copyAssign ⟨true, some 1⟩ ⟨false, none⟩).obs = none) ∧
     ((moveAssignDst ⟨true, some 1⟩ ⟨false, none⟩).blk = false →
       (moveAssignDst ⟨true, some 1⟩ ⟨false, none⟩).obs = none) ∧
     ((moveAssignSrc ⟨false, none⟩).blk = false →
       (moveAssignSrc ⟨false, none⟩).obs = none)) :=
  ⟨by decide, by decide,
   empty_state_invariant ⟨true, some 1⟩ ⟨false, none⟩ (some 2)
     ⟨1, 0, some 3, 0, 0, true, 0, false⟩ ⟨true, some 3⟩
     (by decide) (by decide)⟩

end SmartPtr
